import Mathlib

/-
  Verification development for the pcbpack panel-packing tool.

  The Python source is shallowly embedded: Python floats are modelled as
  rationals (ℚ), mutable objects as records updated functionally, Python
  exceptions as `Except String`, and Python dicts as association lists with
  update-in-place-or-append semantics.  Every definition is translated from
  the source file pcbpack.py; the few predicates that instead follow the
  specification's words (for comparison against the code) are marked as such
  in their doc comments.
-/

/- The batteries library seals rational arithmetic against unfolding; restore
the default reducibility so that concrete runs of the embedded program can be
evaluated by `decide`. -/
attribute [local semireducible] Rat.add Rat.sub Rat.mul Rat.inv Rat.ofScientific

/-- The `BoardPosition` class: a fixed intrinsic size (`_width`, `_height`),
a mutable location (`x`, `y`) and a rotation flag.  Field names follow the
Python attributes. -/
structure BoardPosition where
  name : String
  _width : ℚ
  _height : ℚ
  x : ℚ
  y : ℚ
  rotated : Bool
deriving DecidableEq, Repr

/-- `BoardPosition.__init__`: stores the dimensions and calls `reset`, which
leaves the board at the origin, unrotated. -/
def mkBoard (name : String) (w h : ℚ) : BoardPosition :=
  ⟨name, w, h, 0, 0, false⟩

/-- The `w` property: effective width, swapping with the height under the
rotation flag. -/
def BoardPosition.w (b : BoardPosition) : ℚ :=
  if b.rotated then b._height else b._width

/-- The `h` property: effective height. -/
def BoardPosition.h (b : BoardPosition) : ℚ :=
  if b.rotated then b._width else b._height

/-- The `w` setter: unconditionally raises
`Exception("Cannot modify width after creation")`. -/
def BoardPosition.setW (b : BoardPosition) (value : ℚ) : Except String BoardPosition :=
  Except.error ("Cannot modify width after creation")

/-- The `h` setter: unconditionally raises
`Exception("Cannot modify height after creation")`. -/
def BoardPosition.setH (b : BoardPosition) (value : ℚ) : Except String BoardPosition :=
  Except.error ("Cannot modify height after creation")

/-- `reset`: restore to the original (unrotated, untranslated) state. -/
def BoardPosition.reset (b : BoardPosition) : BoardPosition :=
  { b with x := 0, y := 0, rotated := false }

/-- `overlaps`: the axis-aligned separation test from the source. -/
def BoardPosition.overlaps (b other : BoardPosition) : Bool :=
  decide (¬ (((b.x + b.w ≤ other.x) ∨
    ((other.x + other.w) ≤ b.x) ∨
    ((b.y + b.h) ≤ other.y) ∨
    ((other.y + other.h) ≤ b.y))))

/-- `contains`: this board completely contains the other. -/
def BoardPosition.contains (b other : BoardPosition) : Bool :=
  decide ((b.x ≤ other.x) ∧
    ((b.x + b.w) ≥ (other.x + other.w)) ∧
    (b.y ≤ other.y) ∧
    ((b.y + b.h) ≥ (other.y + other.h)))

/-- `intersects`: overlap or containment in either direction. -/
def BoardPosition.intersects (b other : BoardPosition) : Bool :=
  b.overlaps other || b.contains other || other.contains b

/-- `clone`: builds `BoardPosition(self.name, self.w, self.h)` — note the
constructor receives the EFFECTIVE width/height and leaves the new object
unrotated — then copies `x` and `y` across. -/
def BoardPosition.clone (b : BoardPosition) : BoardPosition :=
  { mkBoard b.name b.w b.h with x := b.x, y := b.y }

/-- Stable insertion of a board into a height-descending list; an element
inserted from the left goes before strictly-shorter boards and before boards
of equal height that came later, matching Python's stable sort. -/
def insertByH (b : BoardPosition) : List BoardPosition → List BoardPosition
  | [] => [b]
  | c :: rest => if b.h ≥ c.h then b :: c :: rest else c :: insertByH b rest

/-- Model of `sorted(candidate, cmp = lambda x, y: cmp(x.h, y.h), reverse = True)`:
a stable sort by effective height, descending. -/
def sortByH : List BoardPosition → List BoardPosition
  | [] => []
  | b :: rest => insertByH b (sortByH rest)

/-- The `rotations` generator.  The source initialises `flag = 1` before the
inner loop and never changes it, so every index tests `iteration & 1`. -/
def rotations (boards : List BoardPosition) : List (List BoardPosition) :=
  (List.range (2 ^ boards.length)).map (fun iteration =>
    let flag := 1
    sortByH (boards.map (fun b =>
      let board := b.clone
      if iteration &&& flag ≠ 0 then { board with rotated := true } else board)))

/-- The `Panel` class: fixed size, padding, and locked zones. -/
structure Panel where
  w : ℚ
  h : ℚ
  padding : ℚ
  locked : List BoardPosition
deriving DecidableEq, Repr

/-- `Panel.consumed`: bounding extents over the non-locked boards, multiplied. -/
def consumed (boards : List BoardPosition) : ℚ :=
  let wh := boards.foldl
    (fun wh b =>
      if b.name ≠ ("_lock_" : String) then
        (max wh.1 (b.x + b.w), max wh.2 (b.y + b.h))
      else wh)
    ((0 : ℚ), (0 : ℚ))
  wh.1 * wh.2

/-- `Panel.willFit`: reject a board only when one of its dimensions exceeds
both padded panel dimensions. -/
def Panel.willFit (p : Panel) (b : BoardPosition) : Bool :=
  if b.w > (p.w - (2 * p.padding)) ∧ b.w > (p.h - (2 * p.padding)) then false
  else if b.h > (p.w - (2 * p.padding)) ∧ b.h > (p.h - (2 * p.padding)) then false
  else true

/-- Floor of a rational, computed directly (Euclidean division of the
numerator by the positive denominator). -/
def ratFloor (q : ℚ) : ℤ :=
  Int.ediv q.num (q.den : ℤ)

/-- Ceiling of a rational. -/
def ratCeil (q : ℚ) : ℤ :=
  -(ratFloor (-q))

/-- Python's `int()` applied to a rational: truncation toward zero. -/
def pyInt (q : ℚ) : ℤ :=
  if q < 0 then ratCeil q else ratFloor q

/-- Number of x values scanned by `findPosition`: `range(0, int(w - board.w - 1))`. -/
def nxOf (p : Panel) (b : BoardPosition) : ℕ :=
  (pyInt (p.w - b.w - 1)).toNat

/-- Number of y values scanned by `findPosition`: `range(0, int(h - board.h - 1))`. -/
def nyOf (p : Panel) (b : BoardPosition) : ℕ :=
  (pyInt (p.h - b.h - 1)).toNat

/-- `board.x = x; board.y = y` in the scan loop. -/
def setPos (b : BoardPosition) (x y : ℕ) : BoardPosition :=
  { b with x := (x : ℚ), y := (y : ℚ) }

/-- One mutation step of the scan, used to fold the visited cells. -/
def walk (b : BoardPosition) (c : ℕ × ℕ) : BoardPosition :=
  setPos b c.1 c.2

/-- The cells visited by the two nested loops of `findPosition`, linearised in
loop order: x outer (rows appended in increasing x), y inner. -/
def scanCells : ℕ → ℕ → List (ℕ × ℕ)
  | 0, _ => []
  | n + 1, m => scanCells n m ++ (List.range m).map (fun y => (n, y))

/-- The `safe` test of the scan body: the board, moved to cell `c`, intersects
none of the already placed rectangles. -/
def feasB (layout : List BoardPosition) (b : BoardPosition) (c : ℕ × ℕ) : Bool :=
  layout.all (fun existing => !((setPos b c.1 c.2).intersects existing))

/-- The body of `findPosition`'s nested loops: set the position, test every
placed rectangle, return on the first safe cell; the board keeps the mutated
position between iterations. -/
def scanStep (layout : List BoardPosition) : BoardPosition → List (ℕ × ℕ) → Bool × BoardPosition
  | b, [] => (false, b)
  | b, c :: rest =>
    let board := setPos b c.1 c.2
    if layout.all (fun existing => !(board.intersects existing)) then (true, board)
    else scanStep layout board rest

/-- `Panel.findPosition`: raster scan over the usable cells; returns the
success flag together with the (mutated) board. -/
def Panel.findPosition (p : Panel) (layout : List BoardPosition) (b : BoardPosition) :
    Bool × BoardPosition :=
  scanStep layout b (scanCells (nxOf p b) (nyOf p b))

/-- The inner loop of `Panel.layout`: place each board of the candidate in
turn against the growing `current` list, abandoning the candidate on the
first failure. -/
def placeAll (p : Panel) : List BoardPosition → List BoardPosition → Option (List BoardPosition)
  | current, [] => some current
  | current, board :: rest =>
    let r := Panel.findPosition p current board
    if r.1 then placeAll p (current ++ [r.2]) rest else none

/-- The best-so-far update of `Panel.layout`:
`if (best is None) or (consumed(current) < consumed(best)): best = current`. -/
def better (best : Option (List BoardPosition)) (current : List BoardPosition) :
    Option (List BoardPosition) :=
  match best with
  | none => some current
  | some b => if consumed current < consumed b then some current else best

/-- One iteration of `Panel.layout`'s candidate loop. -/
def layoutStep (p : Panel) (best : Option (List BoardPosition))
    (candidate : List BoardPosition) : Option (List BoardPosition) :=
  match placeAll p p.locked candidate with
  | none => best
  | some current => better best current

/-- `Panel.layout` as a search: fold the candidate loop over all rotation
candidates, starting from `best = None`. -/
def Panel.layout (p : Panel) (boards : List BoardPosition) : Option (List BoardPosition) :=
  (rotations boards).foldl (layoutStep p) none

/-- Written from the claim's words, for comparison with `Panel.layout`: a
candidate is a first minimum when its consumed area is at most that of every
successful candidate; `find?` with this predicate returns the first such
candidate in enumeration order. -/
def minPred (l : List (List BoardPosition)) (c : List BoardPosition) : Bool :=
  l.all (fun d => decide (consumed c ≤ consumed d))

/-- A `Panel` object together with the state of its `layout` attribute.
In Python, `self.layout = best` inside the `layout` method creates an
instance attribute that shadows the class method; `layoutSlot = none` models
the name still resolving to the method, `some r` models it rebound to the
stored result `r` (a list or `None`). -/
structure PanelInstance where
  panel : Panel
  layoutSlot : Option (Option (List BoardPosition))
deriving DecidableEq

/-- Calling `instance.layout(*boards)`: if the attribute has already been
rebound the stored list (or `None`) is not callable and Python raises a
`TypeError`; otherwise the method runs, stores its result into the
attribute, and returns `self.layout is not None`. -/
def callLayout (inst : PanelInstance) (boards : List BoardPosition) :
    Except String (Bool × PanelInstance) :=
  match inst.layoutSlot with
  | some _ => Except.error ("TypeError: object is not callable")
  | none =>
    let best := Panel.layout inst.panel boards
    Except.ok (best.isSome, { inst with layoutSlot := some best })

/-
  The drill-file decoder `loadDrillFile`.
-/

/-- Python's `str.strip()` on a character list. -/
def stripWS (cs : List Char) : List Char :=
  ((cs.dropWhile Char.isWhitespace).reverse.dropWhile Char.isWhitespace).reverse

/-- Python's `str.startswith`. -/
def startsWithCS : List Char → List Char → Bool
  | _, [] => true
  | [], _ :: _ => false
  | c :: cs, p :: ps => c = p && startsWithCS cs ps

/-- Python's `str.split(".")`: the pieces between the dots, empties kept. -/
def splitDot : List Char → List (List Char)
  | [] => [[]]
  | c :: rest =>
    match splitDot rest with
    | [] => [[c]]
    | p :: ps => if c = '.' then [] :: p :: ps else (c :: p) :: ps

/-- Value of a digit string. -/
def digitsToNat (cs : List Char) : ℕ :=
  cs.foldl (fun n c => 10 * n + (c.toNat - 48)) 0

/-- Python's `int(s, 10)` on the digit groups produced by the coordinate
regex; fails (raises `ValueError`) on an empty or non-digit string. -/
def parseNatChars (cs : List Char) : Option ℕ :=
  if cs ≠ [] ∧ cs.all Char.isDigit then some (digitsToNat cs) else none

/-- Python's `float()` restricted to the unsigned decimal literals this
program feeds it (the digits-and-one-dot tool codes such as `00.039`). -/
def parseFloatChars (cs : List Char) : Option ℚ :=
  match splitDot cs with
  | [a] => if a ≠ [] ∧ a.all Char.isDigit then some ((digitsToNat a : ℚ)) else none
  | [a, b] =>
    if (a ≠ [] ∨ b ≠ []) ∧ a.all Char.isDigit ∧ b.all Char.isDigit then
      some ((digitsToNat a : ℚ) + (digitsToNat b : ℚ) / 10 ^ b.length)
    else none
  | _ => none

/-- The anchored prefix match of `re.compile("X([0-9]*)Y([0-9]*)")`, returning
the two digit groups. -/
def matchXYChars (cs : List Char) : Option (List Char × List Char) :=
  match cs with
  | 'X' :: rest =>
    (match rest.dropWhile Char.isDigit with
     | 'Y' :: rest2 => some (rest.takeWhile Char.isDigit, rest2.takeWhile Char.isDigit)
     | _ => none)
  | _ => none

/-- Python 2's `round` to an integer: half away from zero. -/
def pyRoundInt (q : ℚ) : ℤ :=
  if q < 0 then ratCeil (q - 1 / 2) else ratFloor (q + 1 / 2)

/-- Python 2's `round(q, 1)`. -/
def pyRound1 (q : ℚ) : ℚ :=
  ((pyRoundInt (q * 10) : ℤ) : ℚ) / 10

/-- The diameter stored for a tool definition: `round(scale * code, 1)`,
then — when the merge option is on — any bit at most 1.2 mm collapsed to
1.0 mm. -/
def toolDiam (merge : Bool) (scale code : ℚ) : ℚ :=
  let d := pyRound1 (scale * code)
  if merge ∧ d ≤ 1.2 then 1 else d

/-- Dictionary lookup. -/
def dictGet? {α β : Type} [DecidableEq α] (k : α) : List (α × β) → Option β
  | [] => none
  | (k', v) :: rest => if k' = k then some v else dictGet? k rest

/-- Dictionary assignment: update in place, or append a new key. -/
def dictSet {α β : Type} [DecidableEq α] (k : α) (v : β) : List (α × β) → List (α × β)
  | [] => [(k, v)]
  | (k', v') :: rest => if k' = k then (k, v) :: rest else (k', v') :: dictSet k v rest

/-- The loop state of `loadDrillFile`. -/
structure DrillState where
  header : Bool
  current : Option ℚ
  tools : List (Char × ℚ)
  results : List (ℚ × List (ℚ × ℚ))
  divisor : Option ℚ
  scale : ℚ
deriving DecidableEq, Repr

/-- The state before the first line: header phase, no current tool, empty
dictionaries, no divisor yet, inch scale 25.4. -/
def initDrillState : DrillState :=
  ⟨true, none, [], [], none, 25.4⟩

/-- One line of `loadDrillFile`'s loop.  Header phase: `T`-lines define a
tool keyed by `line[1]` from the code `line[3:]` (capturing the divisor from
the digits after the first dot the first time), `METRIC` switches the scale
to 1.0, `%` ends the header.  Body phase: a `T`-line selects the tool keyed
by `line[3]` (an IndexError when the line is shorter), an `X`-line decodes a
coordinate pair for the current tool.  Python exceptions become
`Except.error`. -/
def drillStep (merge : Bool) (st : DrillState) (raw : String) : Except String DrillState :=
  let cs := stripWS raw.toList
  if st.header then
    if startsWithCS cs ("T".toList) then
      match cs[1]? with
      | none => Except.error ("string index out of range")
      | some tkey =>
        match parseFloatChars (cs.drop 3) with
        | none => Except.error ("could not convert string to float")
        | some code =>
          let d := toolDiam merge st.scale code
          match st.divisor with
          | some dv => Except.ok { st with tools := dictSet tkey d st.tools, divisor := some dv }
          | none =>
            match (splitDot (cs.drop 3))[1]? with
            | none => Except.error ("list index out of range")
            | some frac =>
              Except.ok { st with tools := dictSet tkey d st.tools,
                                  divisor := some ((10 : ℚ) ^ frac.length) }
    else if startsWithCS cs ("METRIC".toList) then
      Except.ok { st with scale := 1 }
    else if startsWithCS cs ("%".toList) then
      Except.ok { st with header := false }
    else
      Except.ok st
  else
    if startsWithCS cs ("T".toList) then
      match cs[3]? with
      | none => Except.error ("string index out of range")
      | some c =>
        match dictGet? c st.tools with
        | none => Except.error ("KeyError")
        | some diam =>
          let results :=
            match dictGet? diam st.results with
            | none => dictSet diam [] st.results
            | some _ => st.results
          Except.ok { st with current := some diam, results := results }
    else if startsWithCS cs ("X".toList) then
      match st.current with
      | none => Except.ok st
      | some cur =>
        match matchXYChars cs with
        | none => Except.error ("AttributeError")
        | some (g1, g2) =>
          match parseNatChars g1, parseNatChars g2 with
          | some n1, some n2 =>
            (match st.divisor with
             | none => Except.error ("unsupported operand type")
             | some dv =>
               let x := st.scale * ((n1 : ℚ) / dv)
               let y := st.scale * ((n2 : ℚ) / dv)
               match dictGet? cur st.results with
               | none => Except.error ("KeyError")
               | some lst =>
                 Except.ok { st with results := dictSet cur (lst ++ [(x, y)]) st.results })
          | _, _ => Except.error ("invalid literal for int")
    else
      Except.ok st

/-- `loadDrillFile` over the (already line-split) file contents: fold the
line handler through the file and return the diameter → positions mapping;
an uncaught Python exception aborts the whole call. -/
def loadDrillFile (merge : Bool) (fileLines : List String) :
    Except String (List (ℚ × List (ℚ × ℚ))) :=
  (fileLines.foldlM (drillStep merge) initDrillState).map (fun st => st.results)

/-- Decidable equality for `Except`, used to evaluate the decoder on concrete
files inside proofs. -/
instance {ε α : Type} [DecidableEq ε] [DecidableEq α] : DecidableEq (Except ε α)
  | Except.ok a, Except.ok b =>
    match decEq a b with
    | Decidable.isTrue h => Decidable.isTrue (congrArg Except.ok h)
    | Decidable.isFalse h => Decidable.isFalse (fun g => h (by injection g))
  | Except.ok _, Except.error _ => Decidable.isFalse (fun g => Except.noConfusion g)
  | Except.error _, Except.ok _ => Decidable.isFalse (fun g => Except.noConfusion g)
  | Except.error e, Except.error f =>
    match decEq e f with
    | Decidable.isTrue h => Decidable.isTrue (congrArg Except.error h)
    | Decidable.isFalse h => Decidable.isFalse (fun g => h (by injection g))

/-
  Concrete inputs used by the witnesses and counterexamples.
-/

/-- A rotated board away from the origin, for the `clone` claim. -/
def cloneEx : BoardPosition :=
  ⟨"c3", 2, 3, 5, 7, true⟩

/-- An unrotated board, for the `clone` witness. -/
def cloneExU : BoardPosition :=
  mkBoard ("c3u") 2 3

/-- A 14 × 9 panel with padding 2: usable 10 × 5. -/
def panelC5 : Panel :=
  ⟨14, 9, 2, []⟩

/-- An 8 × 8 board: too big for `panelC5` in either orientation, yet one
dimension fits each padded panel dimension separately. -/
def boardC5 : BoardPosition :=
  mkBoard ("c5") 8 8

/-- A 20 × 20 board: both dimensions exceed both padded dimensions of
`panelC5`. -/
def boardC5big : BoardPosition :=
  mkBoard ("c5big") 20 20

/-- A 10 × 10 panel, for the placement-search claims. -/
def panelC4 : Panel :=
  ⟨10, 10, 2, []⟩

/-- A locked 1 × 10 strip along the left edge of `panelC4`. -/
def lockC4 : BoardPosition :=
  ⟨"_lock_", 1, 10, 0, 0, false⟩

/-- An 8 × 8 board to place on `panelC4`. -/
def boardC4 : BoardPosition :=
  mkBoard ("c4") 8 8

/-- A 4 × 4 panel, for the failure-mutation claim. -/
def panelC10 : Panel :=
  ⟨4, 4, 2, []⟩

/-- A 5 × 5 board positioned at (3, 4): too wide for `panelC10`, so the scan
range of `findPosition` is empty. -/
def boardC10 : BoardPosition :=
  ⟨"c10", 5, 5, 3, 4, false⟩

/-- A 2 × 2 board for the nonempty failing scan on `panelC10`. -/
def boardC10s : BoardPosition :=
  mkBoard ("c10s") 2 2

/-- A locked zone covering all of `panelC10`, so no position is feasible. -/
def lockC10 : BoardPosition :=
  ⟨"_lock_", 4, 4, 0, 0, false⟩

/-- The synthetic drill file of the round-trip claim: tool `T1` with inch
code `C00.039`, header ended by `%`, body `T1` then one coordinate line. -/
def drillFileC2 : List String :=
  ["T1C00.039", "%", "T1", "X001000Y002000"]

/-- A metric drill file with two small tools (0.8 mm and 1.1 mm) and one
hole each; the body selects the tools with 4-character lines so that the
source's `line[3]` lookup finds the tool key. -/
def drillFileC7 : List String :=
  ["METRIC", "T1C0.8", "T2C1.1", "%", "T001", "X0010Y0020", "T002", "X0030Y0040"]

/-
  Helper lemmas.
-/

/-- Two boards with equal fields are equal. -/
theorem boardEq (a b : BoardPosition) (h1 : a.name = b.name) (h2 : a._width = b._width)
    (h3 : a._height = b._height) (h4 : a.x = b.x) (h5 : a.y = b.y)
    (h6 : a.rotated = b.rotated) : a = b := by
  cases a
  cases b
  simp_all

/-- Moving the board does not change which cells are feasible. -/
theorem feasB_setPos (L : List BoardPosition) (b : BoardPosition) (u v : ℕ) :
    feasB L (setPos b u v) = feasB L b := rfl

/-- `find?` only looks at the predicate's values on the list. -/
theorem find?_congr_mem {α : Type} {p q : α → Bool} :
    ∀ (l : List α), (∀ x ∈ l, p x = q x) → l.find? p = l.find? q := by
  intro l
  induction l with
  | nil => intro _; rfl
  | cons a t ih =>
    intro h
    have ha : p a = q a := h a (by simp)
    cases hq : q a with
    | true =>
      rw [List.find?_cons_of_pos t (ha.trans hq), List.find?_cons_of_pos t hq]
    | false =>
      rw [List.find?_cons_of_neg t (by simp [ha, hq]), List.find?_cons_of_neg t (by simp [hq])]
      exact ih (fun x hx => h x (by simp [hx]))

/-- The scan loop returns the first feasible cell of its cell list (with the
board moved there), or failure with the board left at the end of the fold of
all visited cells. -/
theorem scanStep_eq (L : List BoardPosition) :
    ∀ (cells : List (ℕ × ℕ)) (b : BoardPosition),
      scanStep L b cells =
        match cells.find? (feasB L b) with
        | some c => (true, setPos b c.1 c.2)
        | none => (false, cells.foldl walk b) := by
  intro cells
  induction cells with
  | nil => intro b; rfl
  | cons c rest ih =>
    intro b
    cases hf : feasB L b c with
    | true =>
      rw [List.find?_cons_of_pos rest hf]
      show (if feasB L b c = true then (true, setPos b c.1 c.2)
            else scanStep L (setPos b c.1 c.2) rest) = (true, setPos b c.1 c.2)
      rw [if_pos hf]
    | false =>
      rw [List.find?_cons_of_neg rest (by simp [hf])]
      show (if feasB L b c = true then (true, setPos b c.1 c.2)
            else scanStep L (setPos b c.1 c.2) rest) = _
      rw [if_neg (by simp [hf])]
      rw [ih (setPos b c.1 c.2)]
      rw [feasB_setPos]
      cases hfind : rest.find? (feasB L b) with
      | some c' => rfl
      | none => rfl

/-- Folding position updates over a cell list never changes the board's
identity, intrinsic size or rotation flag. -/
theorem foldl_walk_fields :
    ∀ (l : List (ℕ × ℕ)) (b : BoardPosition),
      (l.foldl walk b).name = b.name ∧ (l.foldl walk b)._width = b._width ∧
      (l.foldl walk b)._height = b._height ∧ (l.foldl walk b).rotated = b.rotated := by
  intro l
  induction l with
  | nil => intro b; exact ⟨rfl, rfl, rfl, rfl⟩
  | cons c rest ih => intro b; exact ih (walk b c)

/-- An empty inner range produces no cells at all. -/
theorem scanCells_zero_right : ∀ n, scanCells n 0 = [] := by
  intro n
  induction n with
  | zero => rfl
  | succ k ih => simp [scanCells, ih]

/-- With both loop bounds positive, the scan ends at the cell (n, m). -/
theorem scanCells_succ_succ (n m : ℕ) :
    scanCells (n + 1) (m + 1) =
      (scanCells n (m + 1) ++ (List.range m).map (fun y => (n, y))) ++ [(n, m)] := by
  show scanCells n (m + 1) ++ (List.range (m + 1)).map (fun y => (n, y)) = _
  rw [List.range_succ, List.map_append, ← List.append_assoc]
  rfl

/-- `findPosition` never changes the board's intrinsic dimensions. -/
theorem findPosition_preserves (p : Panel) (L : List BoardPosition) (b : BoardPosition) :
    ((Panel.findPosition p L b).2)._width = b._width ∧
    ((Panel.findPosition p L b).2)._height = b._height := by
  have heq := scanStep_eq L (scanCells (nxOf p b) (nyOf p b)) b
  unfold Panel.findPosition
  cases hfind : (scanCells (nxOf p b) (nyOf p b)).find? (feasB L b) with
  | some c =>
    rw [hfind] at heq
    rw [heq]
    exact ⟨rfl, rfl⟩
  | none =>
    rw [hfind] at heq
    rw [heq]
    have hf := foldl_walk_fields (scanCells (nxOf p b) (nyOf p b)) b
    exact ⟨hf.2.1, hf.2.2.1⟩

/-- Folding `better` from a running best `r` selects the first element of
`r :: l` whose consumed area is at most that of every element of `r :: l`. -/
theorem foldl_better_some :
    ∀ (l : List (List BoardPosition)) (r : List BoardPosition),
      l.foldl better (some r) = (r :: l).find? (minPred (r :: l)) := by
  intro l
  induction l with
  | nil =>
    intro r
    show some r = List.find? (minPred [r]) [r]
    rw [List.find?_cons_of_pos _ (by simp [minPred])]
  | cons a t ih =>
    intro r
    rw [List.foldl_cons]
    by_cases har : consumed a < consumed r
    · have hba : better (some r) a = some a := by simp [better, har]
      rw [hba, ih a]
      have hrfalse : minPred (r :: a :: t) r = false := by
        simp only [minPred, List.all_cons, decide_eq_false (not_le.mpr har)]
        simp
      have hneg1 : ¬ (minPred (r :: a :: t) r = true) := by simp [hrfalse]
      rw [List.find?_cons_of_neg (a :: t) hneg1]
      apply find?_congr_mem
      intro x hx
      by_cases hxa : consumed x ≤ consumed a
      · have hxr : consumed x ≤ consumed r := le_of_lt (lt_of_le_of_lt hxa har)
        simp only [minPred, List.all_cons, decide_eq_true hxa, decide_eq_true hxr,
          Bool.true_and]
      · simp only [minPred, List.all_cons, decide_eq_false hxa]
        simp
    · have hra : consumed r ≤ consumed a := le_of_not_lt har
      have hbr : better (some r) a = some r := by simp [better, har]
      rw [hbr, ih r]
      have hhead : minPred (r :: t) r = minPred (r :: a :: t) r := by
        simp only [minPred, List.all_cons, decide_eq_true hra,
          decide_eq_true (le_refl (consumed r)), Bool.true_and]
      cases hall : minPred (r :: t) r with
      | true =>
        rw [List.find?_cons_of_pos t hall, List.find?_cons_of_pos (a :: t) (hhead ▸ hall)]
      | false =>
        have hbig : minPred (r :: a :: t) r = false := hhead ▸ hall
        have hneg1 : ¬ (minPred (r :: t) r = true) := by simp [hall]
        have hneg2 : ¬ (minPred (r :: a :: t) r = true) := by simp [hbig]
        rw [List.find?_cons_of_neg t hneg1, List.find?_cons_of_neg (a :: t) hneg2]
        have htall : t.all (fun d => decide (consumed r ≤ consumed d)) = false := by
          have h2 := hall
          simp only [minPred, List.all_cons, decide_eq_true (le_refl (consumed r)),
            Bool.true_and] at h2
          exact h2
        have hA : minPred (r :: a :: t) a = false := by
          by_cases haR : consumed a ≤ consumed r
          · have heq2 : consumed a = consumed r := le_antisymm haR hra
            simp only [minPred, List.all_cons, heq2, htall]
            simp
          · simp only [minPred, List.all_cons, decide_eq_false haR]
            simp
        have hneg3 : ¬ (minPred (r :: a :: t) a = true) := by simp [hA]
        rw [List.find?_cons_of_neg t hneg3]
        apply find?_congr_mem
        intro x hx
        by_cases hxr : consumed x ≤ consumed r
        · have hxa : consumed x ≤ consumed a := le_trans hxr hra
          simp only [minPred, List.all_cons, decide_eq_true hxr, decide_eq_true hxa,
            Bool.true_and]
        · simp only [minPred, List.all_cons, decide_eq_false hxr]
          simp

/-- The best-so-far fold starting from `None` is exactly the first minimum. -/
theorem foldl_better_none (l : List (List BoardPosition)) :
    l.foldl better none = l.find? (minPred l) := by
  cases l with
  | nil => rfl
  | cons a t =>
    rw [List.foldl_cons]
    show t.foldl better (some a) = _
    exact foldl_better_some t a

/-- Failed candidates contribute nothing to the candidate loop: folding the
loop body equals folding `better` over the successfully placed candidates. -/
theorem layout_foldl (p : Panel) :
    ∀ (l : List (List BoardPosition)) (init : Option (List BoardPosition)),
      l.foldl (layoutStep p) init = (l.filterMap (placeAll p p.locked)).foldl better init := by
  intro l
  induction l with
  | nil => intro init; rfl
  | cons a t ih =>
    intro init
    cases h : placeAll p p.locked a with
    | none => simp [List.foldl_cons, List.filterMap_cons, layoutStep, h, ih]
    | some cur => simp [List.foldl_cons, List.filterMap_cons, layoutStep, h, ih]

/-
  The claims.
-/

/-- C1: the enumerator is claimed to set item k's rotation flag from bit k of
the candidate index, giving 2^N distinct assignments.  Evaluating the code on
two boards (1 × 2 and 1 × 3) shows every candidate has all flags equal to bit
0 of the index: candidate 2 (whose bit 1 is set) rotates nothing, and only
the all-false and all-true assignments ever occur — the loop's `flag`
variable is initialised to 1 and never shifted. -/
theorem rotations_flag_bug :
    (rotations [mkBoard ("a") 1 2, mkBoard ("b") 1 3]).map
        (fun cand => cand.map (fun bd => bd.rotated)) =
      [[false, false], [true, true], [false, false], [true, true]] := by decide

/-- C2 counterexample: decoding the claimed drill file does not succeed — the
body line `T1` makes the tool selection read `line[3]` of a 2-character line,
an IndexError. -/
theorem drill_decode_error :
    loadDrillFile false drillFileC2 = Except.error ("string index out of range") := by decide

/-- C2 amended: the header line alone yields tool `1` with diameter 1.0 mm
(25.4 × 0.039 rounded to one decimal) and coordinate divisor 1000, since the
code `00.039` has three digits after the decimal point (not 10 as claimed);
the subsequent body line `T1` then aborts the decode with an index error
instead of producing any coordinate group. -/
theorem drill_header_then_error :
    (["T1C00.039"] : List String).foldlM (drillStep false) initDrillState =
      Except.ok ⟨true, none, [('1', 1)], [], some 1000, 25.4⟩ ∧
    loadDrillFile false drillFileC2 = Except.error ("string index out of range") :=
  ⟨by decide, by decide⟩

/-- C3 counterexample: cloning a rotated board at (5, 7) with intrinsic size
2 × 3 preserves neither the rotation flag nor the intrinsic width. -/
theorem clone_counterexample :
    cloneEx.clone.rotated ≠ cloneEx.rotated ∧ cloneEx.clone._width ≠ cloneEx._width := by
  decide

/-- C3 amended: `clone` preserves the position, the name and the EFFECTIVE
width and height (which it stores as the copy's intrinsic dimensions), and
always resets the copy's rotation flag; consequently it is an exact copy
precisely when the original is unrotated. -/
theorem clone_preserves_effective (b : BoardPosition) :
    b.clone.x = b.x ∧ b.clone.y = b.y ∧ b.clone.name = b.name ∧
    b.clone.w = b.w ∧ b.clone.h = b.h ∧ b.clone.rotated = false ∧
    (b.rotated = false → b.clone = b) := by
  refine ⟨rfl, rfl, rfl, rfl, rfl, rfl, ?_⟩
  intro h
  cases b with
  | mk name w h' x y rot =>
    subst h
    rfl

/-- C3 witness: applied to a concrete unrotated board. -/
theorem clone_preserves_effective_witness :
    cloneExU.rotated = false ∧ cloneExU.clone = cloneExU :=
  ⟨by decide, (clone_preserves_effective cloneExU).2.2.2.2.2.2 (by decide)⟩

/-- C4 counterexample: on a 10 × 10 panel with a locked 1 × 10 strip at the
left edge, an 8 × 8 board fails the search although x = 1 lies inside the
claimed scan range 0 ≤ x ≤ panel.width − item.width − 1 and the board placed
at (1, 0) intersects nothing — the code's `range(0, int(w − bw − 1))` stops
one short of the claimed bound. -/
theorem findPosition_range_counterexample :
    (Panel.findPosition panelC4 [lockC4] boardC4).1 = false ∧
    (0 : ℚ) ≤ 1 ∧ (1 : ℚ) ≤ panelC4.w - boardC4.w - 1 ∧
    (0 : ℚ) ≤ panelC4.h - boardC4.h - 1 ∧
    (setPos boardC4 1 0).intersects lockC4 = false := by decide

/-- C4 amended: the Placement Search scans integer cells with x outer and y
inner, both stepping by 1, over 0 ≤ x < int(panel.width − item.width − 1)
and 0 ≤ y < int(panel.height − item.height − 1) (one less than the claimed
upper bound on each axis), and returns the first scanned cell at which the
item intersects no already placed rectangle, moving the item there; when no
scanned cell is feasible it returns false as an ordinary result (with the
item left wherever the scan ended) rather than raising an error. -/
theorem findPosition_first_feasible (p : Panel) (L : List BoardPosition) (b : BoardPosition) :
    Panel.findPosition p L b =
      match (scanCells (nxOf p b) (nyOf p b)).find? (feasB L b) with
      | some c => (true, setPos b c.1 c.2)
      | none => (false, (scanCells (nxOf p b) (nyOf p b)).foldl walk b) :=
  scanStep_eq L (scanCells (nxOf p b) (nyOf p b)) b

/-- C5 counterexample: on a panel with usable area 10 × 5 an 8 × 8 board fits
in neither orientation, yet `willFit` returns true — so `willFit` is not
false "exactly when" neither orientation fits. -/
theorem willFit_counterexample :
    Panel.willFit panelC5 boardC5 = true ∧
    ¬(((boardC5.w ≤ panelC5.w - 2 * panelC5.padding) ∧
        (boardC5.h ≤ panelC5.h - 2 * panelC5.padding)) ∨
      ((boardC5.w ≤ panelC5.h - 2 * panelC5.padding) ∧
        (boardC5.h ≤ panelC5.w - 2 * panelC5.padding))) := by decide

/-- C5 amended: `willFit` returns false only when neither orientation fits
the padded panel bounds (it rejects exactly the boards with one dimension
exceeding both padded panel dimensions, which is sufficient but not
necessary for infeasibility); in particular, when both the width and the
height exceed both padded dimensions it returns false. -/
theorem willFit_only_if (p : Panel) (b : BoardPosition) :
    (Panel.willFit p b = false →
      ¬(((b.w ≤ p.w - 2 * p.padding) ∧ (b.h ≤ p.h - 2 * p.padding)) ∨
        ((b.w ≤ p.h - 2 * p.padding) ∧ (b.h ≤ p.w - 2 * p.padding)))) ∧
    ((b.w > p.w - 2 * p.padding ∧ b.w > p.h - 2 * p.padding ∧
      b.h > p.w - 2 * p.padding ∧ b.h > p.h - 2 * p.padding) →
      Panel.willFit p b = false) := by
  constructor
  · intro hf
    unfold Panel.willFit at hf
    split_ifs at hf with h1 h2
    · rintro (⟨hw, _⟩ | ⟨hw, _⟩)
      · exact absurd hw (not_le.mpr h1.1)
      · exact absurd hw (not_le.mpr h1.2)
    · rintro (⟨_, hh⟩ | ⟨_, hh⟩)
      · exact absurd hh (not_le.mpr h2.2)
      · exact absurd hh (not_le.mpr h2.1)
  · rintro ⟨h1, h2, _, _⟩
    unfold Panel.willFit
    rw [if_pos ⟨h1, h2⟩]

/-- C5 witness: a 20 × 20 board on the 10 × 5 usable area. -/
theorem willFit_only_if_witness :
    Panel.willFit panelC5 boardC5big = false ∧
    ¬(((boardC5big.w ≤ panelC5.w - 2 * panelC5.padding) ∧
        (boardC5big.h ≤ panelC5.h - 2 * panelC5.padding)) ∨
      ((boardC5big.w ≤ panelC5.h - 2 * panelC5.padding) ∧
        (boardC5big.h ≤ panelC5.w - 2 * panelC5.padding))) :=
  ⟨(willFit_only_if panelC5 boardC5big).2 (by decide),
   (willFit_only_if panelC5 boardC5big).1
     ((willFit_only_if panelC5 boardC5big).2 (by decide))⟩

/-- C6: the layout engine returns exactly the first candidate (in enumeration
order) among the successfully placed ones whose consumed area is at most that
of every successfully placed candidate — so it minimises the consumed area,
breaks ties in favour of the candidate discovered first, and returns `none`
(failure) precisely when no candidate places every item. -/
theorem layout_minimizes_consumed (p : Panel) (bs : List BoardPosition) :
    Panel.layout p bs =
      ((rotations bs).filterMap (placeAll p p.locked)).find?
        (minPred ((rotations bs).filterMap (placeAll p p.locked))) := by
  unfold Panel.layout
  rw [layout_foldl]
  exact foldl_better_none _

/-- C7: with the merge option on, every tool whose computed diameter
(`round(scale * code, 1)`) is at most 1.2 mm is stored with the canonical
diameter 1.0 mm, and with merge off the computed diameter is kept; on a
concrete metric file with tools of 0.8 mm and 1.1 mm, merging yields the
single 1.0 mm group holding both holes, while without merging the two
diameters stay distinct groups. -/
theorem merge_policy :
    (∀ s x : ℚ, pyRound1 (s * x) ≤ 1.2 → toolDiam true s x = 1) ∧
    (∀ s x : ℚ, toolDiam false s x = pyRound1 (s * x)) ∧
    loadDrillFile true drillFileC7 =
      Except.ok ([((1 : ℚ), [((1 : ℚ), (2 : ℚ)), (3, 4)])]) ∧
    loadDrillFile false drillFileC7 =
      Except.ok ([((4 / 5 : ℚ), [((1 : ℚ), (2 : ℚ))]), (11 / 10, [(3, 4)])]) := by
  refine ⟨?_, ?_, by decide, by decide⟩
  · intro s x h
    simp [toolDiam, h]
  · intro s x
    simp [toolDiam]

/-- C7 witness: the 0.8 mm tool of the concrete file is collapsed to 1 mm. -/
theorem merge_policy_witness :
    pyRound1 ((1 : ℚ) * (4 / 5)) ≤ 1.2 ∧ toolDiam true 1 (4 / 5) = 1 :=
  ⟨by decide, merge_policy.1 1 (4 / 5) (by decide)⟩

/-- C8: assigning to the intrinsic width or height raises
`Exception("Cannot modify ... after creation")`, and no search operation —
`reset` or the placement scan — ever changes the stored intrinsic
dimensions. -/
theorem intrinsic_immutable (b : BoardPosition) (v : ℚ) (p : Panel) (L : List BoardPosition) :
    b.setW v = Except.error ("Cannot modify width after creation") ∧
    b.setH v = Except.error ("Cannot modify height after creation") ∧
    b.reset._width = b._width ∧ b.reset._height = b._height ∧
    ((Panel.findPosition p L b).2)._width = b._width ∧
    ((Panel.findPosition p L b).2)._height = b._height :=
  ⟨rfl, rfl, rfl, rfl, (findPosition_preserves p L b).1, (findPosition_preserves p L b).2⟩

/-- C9: the first call on a fresh panel instance runs the search, rebinds the
`layout` attribute to the resulting best candidate (or `None`), and returns
whether a layout was found; any later call on an instance whose attribute
was rebound raises a `TypeError` instead of searching — `layout` is usable
at most once per instance. -/
theorem layout_single_use (p : Panel) (bs bs2 : List BoardPosition)
    (st : Option (List BoardPosition)) :
    callLayout ⟨p, none⟩ bs =
      Except.ok ((Panel.layout p bs).isSome, ⟨p, some (Panel.layout p bs)⟩) ∧
    callLayout ⟨p, some st⟩ bs2 = Except.error ("TypeError: object is not callable") :=
  ⟨rfl, rfl⟩

/-- C10 counterexample: a 5 × 5 board at (3, 4) on a 4 × 4 panel makes the
scan range empty; the search fails and returns the board completely
unchanged — its position is its pre-call value, not a scanned grid cell, so
the search does not always mutate the position on failure. -/
theorem findPosition_no_mutation_counterexample :
    Panel.findPosition panelC10 [] boardC10 = (false, boardC10) := by decide

/-- C10 amended: when the scan visits no cell (either range empty) a failed
search leaves the board untouched; when both ranges are nonempty, a failed
search leaves the board's position at the last scanned cell
(nx − 1, ny − 1) instead of restoring its pre-call position. -/
theorem findPosition_failure_position (p : Panel) (L : List BoardPosition) (b : BoardPosition) :
    (scanCells (nxOf p b) (nyOf p b) = [] → Panel.findPosition p L b = (false, b)) ∧
    (∀ n m : ℕ, nxOf p b = n + 1 → nyOf p b = m + 1 →
      (Panel.findPosition p L b).1 = false →
      (Panel.findPosition p L b).2 = setPos b n m) := by
  constructor
  · intro hcells
    show scanStep L b (scanCells (nxOf p b) (nyOf p b)) = (false, b)
    rw [hcells]
    rfl
  · intro n m hn hm hfail
    have heq := scanStep_eq L (scanCells (nxOf p b) (nyOf p b)) b
    cases hfind : (scanCells (nxOf p b) (nyOf p b)).find? (feasB L b) with
    | some c =>
      exfalso
      rw [hfind] at heq
      have hres : Panel.findPosition p L b = (true, setPos b c.1 c.2) := heq
      rw [hres] at hfail
      cases hfail
    | none =>
      rw [hfind] at heq
      have hres : Panel.findPosition p L b =
          (false, (scanCells (nxOf p b) (nyOf p b)).foldl walk b) := heq
      rw [hres]
      show (scanCells (nxOf p b) (nyOf p b)).foldl walk b = setPos b n m
      rw [hn, hm, scanCells_succ_succ, List.foldl_append]
      show walk ((scanCells n (m + 1) ++ (List.range m).map (fun y => (n, y))).foldl walk b)
          (n, m) = setPos b n m
      have hf := foldl_walk_fields (scanCells n (m + 1) ++ (List.range m).map (fun y => (n, y))) b
      exact boardEq _ _ hf.1 hf.2.1 hf.2.2.1 rfl rfl hf.2.2.2

/-- C10 witness: a 2 × 2 board on the fully locked 4 × 4 panel — the single
scanned cell (0, 0) is infeasible, and the failed board is left there. -/
theorem findPosition_failure_position_witness :
    nxOf panelC10 boardC10s = 0 + 1 ∧ nyOf panelC10 boardC10s = 0 + 1 ∧
    (Panel.findPosition panelC10 [lockC10] boardC10s).1 = false ∧
    (Panel.findPosition panelC10 [lockC10] boardC10s).2 = setPos boardC10s 0 0 :=
  ⟨by decide, by decide, by decide,
    (findPosition_failure_position panelC10 [lockC10] boardC10s).2 0 0
      (by decide) (by decide) (by decide)⟩
